import Mathlib

/-!
Verification of the taste-fingerprint and recommendation pipeline.

The definitions below are a shallow embedding of the Python sources
`scripts/taste_fingerprint_generator.py` and `scripts/recommendation_engine.py`.
Python floats are modelled as exact rationals (ℚ), except for cosine
similarity where the square root forces real numbers (ℝ).  Python dicts of
dimension scores are modelled as association lists `List (String × Option ℚ)`
(an entry with `none` models a key mapped to Python `None`), and the derived
aggregate score map, which always holds all 62 registered dimensions, is
modelled as a total function `String → ℚ`.
-/

set_option maxRecDepth 4000

/-- Registry of the 62 dimension names, in registration order, transcribed from
`TasteFingerprintGenerator._get_all_dimension_names`. -/
def dimension_names : List String :=
  [ "color_palette_psychology"
  , "lighting_philosophy"
  , "camera_movement_personality"
  , "shot_composition_philosophy"
  , "depth_of_field_psychology"
  , "texture_and_grain"
  , "aspect_ratio_emotional_frame"
  , "spatial_density"
  , "cinematic_realism_spectrum"
  , "blocking_and_performance_space"
  , "color_temperature"
  , "lens_distortion_and_perspective"
  , "shadow_ratio"
  , "frame_rate_and_motion"
  , "visual_motif_repetition"
  , "editing_tempo"
  , "narrative_rhythm"
  , "temporal_structure"
  , "montage_philosophy"
  , "scene_length_variance"
  , "ellipsis_and_gaps"
  , "transition_style"
  , "rhythm_acceleration"
  , "score_emotional_temperature"
  , "score_density"
  , "music_function"
  , "soundscape_texture"
  , "diegetic_vs_nondiegetic_ratio"
  , "sonic_interiority"
  , "silence_as_tool"
  , "vocal_treatment"
  , "rhythmic_percussion"
  , "philosophical_stance"
  , "narrative_tension_source"
  , "moral_complexity"
  , "ending_resolution"
  , "power_dynamics"
  , "intimacy_scale"
  , "dialogue_philosophy"
  , "relationship_to_class"
  , "body_and_physicality"
  , "time_relationship"
  , "hope_quotient"
  , "political_consciousness"
  , "craft_precision_vs_rawness"
  , "art_cinema_vs_pop_cinema_mode"
  , "narrative_ambition_level"
  , "irony_sincerity_register"
  , "emotional_weight_tolerance"
  , "performance_style_preference"
  , "script_construction_visibility"
  , "auteur_intentionality_desire"
  , "emotional_temperature"
  , "catharsis_availability"
  , "tonal_consistency"
  , "empathy_requirement"
  , "beauty_priority"
  , "sensory_immersion"
  , "vulnerability_exposure"
  , "mystery_comfort"
  , "artifice_awareness"
  , "suffering_tolerance" ]

/-- One movie's `dimensional_scores` dict: an association list from dimension
name to an optional score (`none` models Python `None`). -/
abbrev ScoreMap := List (String × Option ℚ)

/-- Scores that the map `m` holds for dimension `d` (entries with key `d` and a
non-`None` value).  For a genuine dict (no duplicate keys) this list has at
most one element. -/
def contribs (m : ScoreMap) (d : String) : List ℚ :=
  m.filterMap (fun p => if p.1 = d then p.2 else none)

/-- Value of `dimension_sums[d]` in `_calculate_average_scores` after the
accumulation loop. -/
def dimension_sum (movies : List ScoreMap) (d : String) : ℚ :=
  (movies.map (fun m => (contribs m d).sum)).sum

/-- Value of `dimension_counts[d]` in `_calculate_average_scores` after the
accumulation loop. -/
def dimension_count (movies : List ScoreMap) (d : String) : ℕ :=
  (movies.map (fun m => (contribs m d).length)).sum

/-- Entry `avg_scores[d]` (for a registered dimension `d`) produced by
`TasteFingerprintGenerator._calculate_average_scores`: the accumulated sum
divided by the count when the count is positive, else the neutral 4.0. -/
def calculate_average_scores (movies : List ScoreMap) (d : String) : ℚ :=
  if 0 < dimension_count movies d then
    dimension_sum movies d / (dimension_count movies d : ℚ)
  else 4

/-- Movies of the input list that supply dimension `d`, i.e. whose score dict
holds a non-`None` entry for `d`. -/
def suppliers (movies : List ScoreMap) (d : String) : List ScoreMap :=
  movies.filter (fun m => !(contribs m d).isEmpty)

/-- Keys of a score map, used to state the dict invariant (no duplicate keys). -/
def mapKeys (m : ScoreMap) : List String := m.map Prod.fst

/-- Stable insertion into a list already sorted by the Boolean comparator
`le`: the new element goes after every element it compares `le`-above-or-equal
to, exactly as Python's stable `sort`/`sorted` orders equal keys. -/
def sinsert (le : α → α → Bool) (x : α) : List α → List α
  | [] => [x]
  | y :: ys => if le y x then y :: sinsert le x ys else x :: y :: ys

/-- Stable sort by the Boolean comparator `le`, modelling Python's
`list.sort(key=...)` / `sorted(..., key=...)` (with `reverse=True` expressed
by flipping the comparator). -/
def ssort (le : α → α → Bool) (l : List α) : List α :=
  l.foldl (fun acc x => sinsert le x acc) []

/-- Low-pole candidates gathered by `_identify_strong_preferences`: the
registered dimensions whose aggregate score is ≤ 2.5, in registration order
(the iteration order of the aggregate dict), paired with their scores.  The
source's `elif score >= 5.5` guard is redundant for the low list because no
score is both ≤ 2.5 and ≥ 5.5. -/
def strong_low_all (f : String → ℚ) : List (String × ℚ) :=
  (dimension_names.filter (fun d => decide (f d ≤ 5/2))).map (fun d => (d, f d))

/-- High-pole candidates of `_identify_strong_preferences` (score ≥ 5.5). -/
def strong_high_all (f : String → ℚ) : List (String × ℚ) :=
  (dimension_names.filter (fun d => decide (11/2 ≤ f d))).map (fun d => (d, f d))

/-- Value `low_end_preferences` of `_identify_strong_preferences`: low-pole
candidates sorted ascending by score (Python's stable sort), capped at 10. -/
def strong_low (f : String → ℚ) : List (String × ℚ) :=
  (ssort (fun p q => decide (p.2 ≤ q.2)) (strong_low_all f)).take 10

/-- Value `high_end_preferences` of `_identify_strong_preferences`: high-pole
candidates sorted descending by score (`reverse=True`, stable), capped at 10. -/
def strong_high (f : String → ℚ) : List (String × ℚ) :=
  (ssort (fun p q => decide (q.2 ≤ p.2)) (strong_high_all f)).take 10

/-- Registration index of a dimension name in the registry. -/
def regIndex (d : String) : ℕ := dimension_names.indexOf d

/-- Normalization `(score - 1) / 6` applied elementwise by
`_create_taste_vector` to map the 1-7 scale onto [0,1]. -/
def normalizeScore (x : ℚ) : ℚ := (x - 1) / 6

/-- Embedding of `_create_taste_vector`: the vector
`[avg_scores.get(dim, 4.0) for dim in self.dimension_names]` followed by the
elementwise normalization `(vector - 1) / 6`.  The aggregate map always holds
all 62 registered dimensions, so it is modelled as a total function and the
`4.0` dict default never fires. -/
def create_taste_vector (f : String → ℚ) : List ℚ :=
  (dimension_names.map f).map normalizeScore

/-- Dot product of two score vectors, `np.dot(vector1, vector2)`. -/
def dotProduct (v w : List ℝ) : ℝ := (List.zipWith (fun a b => a * b) v w).sum

/-- Euclidean norm `np.linalg.norm(v)`, the square root of the dot product of
`v` with itself. -/
noncomputable def vecNorm (v : List ℝ) : ℝ := Real.sqrt (dotProduct v v)

open Classical in
/-- Embedding of `TasteFingerprintGenerator.calculate_similarity`: cosine
similarity, returning 0.0 when either vector has zero norm. -/
noncomputable def calculate_similarity (v w : List ℝ) : ℝ :=
  if vecNorm v = 0 ∨ vecNorm w = 0 then 0
  else dotProduct v w / (vecNorm v * vecNorm w)

/-- Whitespace characters matched by Python's `\s` on ASCII input
(space, tab, newline, carriage return, vertical tab, form feed). -/
def isPySpace (c : Char) : Bool :=
  c.toNat = 32 || c.toNat = 9 || c.toNat = 10 || c.toNat = 13 ||
    c.toNat = 11 || c.toNat = 12

/-- Characters kept by the first regex substitution of `_create_slug`: the
ranges `a`-`z` (97-122) and `0`-`9` (48-57), whitespace, and the hyphen. -/
def isSlugKeep (c : Char) : Bool :=
  (97 ≤ c.toNat && c.toNat ≤ 122) || (48 ≤ c.toNat && c.toNat ≤ 57) ||
    isPySpace c || c == '-'

/-- ASCII case folding performed by `title.lower()` (`A`-`Z` is 65-90;
lowering adds 32).  Non-ASCII case pairs are all removed by the following
character filter, so the ASCII model is faithful for the slug output. -/
def toLowerChar (c : Char) : Char :=
  if 65 ≤ c.toNat && c.toNat ≤ 90 then Char.ofNat (c.toNat + 32) else c

/-- Replacement of each maximal whitespace run by one hyphen, as performed by
the second regex substitution of `_create_slug`.  The Boolean flag records
whether the previous character was whitespace (i.e. the run is already open). -/
def squashWs : Bool → List Char → List Char
  | _, [] => []
  | prevWs, c :: cs =>
    if isPySpace c then
      if prevWs then squashWs true cs else '-' :: squashWs true cs
    else c :: squashWs false cs

/-- Python `slug.strip` with a hyphen argument: drop hyphens from both ends. -/
def stripHyphens (l : List Char) : List Char :=
  ((l.dropWhile (fun c => c == '-')).reverse.dropWhile (fun c => c == '-')).reverse

/-- Embedding of `RecommendationEngine._create_slug`: lowercase the title,
drop every character outside lowercase letters, digits, whitespace and
hyphens, collapse each whitespace run to a single hyphen, and strip
leading/trailing hyphens. -/
def create_slug (t : String) : String :=
  ⟨stripHyphens (squashWs false ((t.data.map toLowerChar).filter isSlugKeep))⟩

/-- Film/candidate record with the dict fields of `recommendation_engine.py`
that the taste profile aggregator, candidate scorer and selector read.
Missing string keys are modelled by `""` (matching the source's `.get` string
defaults and Python truthiness checks), a missing year by `none`, and the
candidate 'type' key by `ctype`. -/
structure Movie where
  title : String
  genres : List String
  themes : List String
  director : String
  cast : List String
  year : Option ℤ
  mood : String
  ctype : String
  similarity_score : ℚ
  base_similarity : ℚ
  similar_to : String
  recommendation_score : ℚ
deriving DecidableEq

/-- Baseline record with every field empty/zero, used to build concrete
movies in the evaluation theorems. -/
def defaultMovie : Movie :=
  { title := "", genres := [], themes := [], director := "", cast := []
  , year := none, mood := "", ctype := "", similarity_score := 0
  , base_similarity := 0, similar_to := "", recommendation_score := 0 }

/-- Output record of `_analyze_taste_profile`. -/
structure TasteProfile where
  top_genres : List String
  top_themes : List String
  top_directors : List String
  top_actors : List String
  top_decades : List String
  top_moods : List String
  genre_distribution : List (String × ℕ)
  total_movies : ℕ
  average_year : ℚ

/-- Bump `key` in an association list, modelling one `defaultdict(int)`
update: a first occurrence appends at the end, preserving dict insertion
order. -/
def countInsert (key : String) : List (String × ℕ) → List (String × ℕ)
  | [] => [(key, 1)]
  | (k, n) :: rest =>
    if k = key then (k, n + 1) :: rest else (k, n) :: countInsert key rest

/-- Frequency table of a key sequence, in first-seen order. -/
def countAll (keys : List String) : List (String × ℕ) :=
  keys.foldl (fun acc k => countInsert k acc) []

/-- Python's `sorted(d.items(), key=lambda x: x[1], reverse=True)`: stable
sort descending by count. -/
def sortByCountDesc (l : List (String × ℕ)) : List (String × ℕ) :=
  ssort (fun p q => decide (q.2 ≤ p.2)) l

/-- Embedding of `RecommendationEngine._analyze_taste_profile`.  Counts are
accumulated in iteration order; each ranking is the stable descending sort of
the corresponding table, capped at 5 (genres/themes/directors/actors) or 3
(decades/moods); `average_year` treats a missing year as 0 and is 0 for an
empty input. -/
def analyze_taste_profile (loved : List Movie) : TasteProfile :=
  let genres := countAll (loved.flatMap (fun m => m.genres))
  let themes := countAll (loved.flatMap (fun m => m.themes))
  let directors := countAll (loved.filterMap (fun m =>
    if m.director ≠ "" ∧ m.director ≠ "N/A" then some m.director else none))
  let actors := countAll (loved.flatMap (fun m => m.cast.take 3))
  let decades := countAll (loved.filterMap (fun m =>
    match m.year with
    | some y => if y ≠ 0 then some (toString (Int.fdiv y 10 * 10) ++ "s") else none
    | none => none))
  let moods := countAll (loved.filterMap (fun m =>
    if m.mood ≠ "" then some m.mood else none))
  { top_genres := ((sortByCountDesc genres).take 5).map Prod.fst
  , top_themes := ((sortByCountDesc themes).take 5).map Prod.fst
  , top_directors := ((sortByCountDesc directors).take 5).map Prod.fst
  , top_actors := ((sortByCountDesc actors).take 5).map Prod.fst
  , top_decades := ((sortByCountDesc decades).take 3).map Prod.fst
  , top_moods := ((sortByCountDesc moods).take 3).map Prod.fst
  , genre_distribution := genres
  , total_movies := loved.length
  , average_year :=
      if loved = [] then 0
      else (((loved.map (fun m => m.year.getD 0)).sum : ℤ) : ℚ) / (loved.length : ℚ) }

/-- Genre match ratio of `_score_candidates`: the intersection of the
candidate's genre set with the profile's top genres over
`max(len(candidate_genres), 1)`, where both sides are Python sets (modelled
by `dedup`). -/
def genre_match (c : Movie) (p : TasteProfile) : ℚ :=
  ((c.genres.dedup.filter (fun g => decide (g ∈ p.top_genres))).length : ℚ)
    / ((max c.genres.dedup.length 1 : ℕ) : ℚ)

/-- Theme match ratio of `_score_candidates`, 0 when the candidate's theme
set is empty (the source's `if candidate_themes else 0`). -/
def theme_match (c : Movie) (p : TasteProfile) : ℚ :=
  if c.themes.dedup = [] then 0
  else ((c.themes.dedup.filter (fun g => decide (g ∈ p.top_themes))).length : ℚ)
    / ((max c.themes.dedup.length 1 : ℕ) : ℚ)

/-- Director bonus of `_score_candidates`: 1.2 when the candidate's director
is one of the profile's top directors, else 1.0. -/
def director_bonus (c : Movie) (p : TasteProfile) : ℚ :=
  if c.director ∈ p.top_directors then 6/5 else 1

/-- Recency factor of `_score_candidates`: `min(year / 2020, 1.0)` with the
source's year default of 2000. -/
def recency_factor (c : Movie) : ℚ := min (((c.year.getD 2000 : ℤ) : ℚ) / 2020) 1

/-- Final score formula of `_score_candidates` for one candidate. -/
def score_candidate (c : Movie) (p : TasteProfile) (diversity_factor : ℚ) : ℚ :=
  c.base_similarity * (1/2) * (1 - diversity_factor * (3/10))
    + genre_match c p * (1/5)
    + theme_match c p * (3/20)
    + (director_bonus c p - 1) * (3/20)
    + recency_factor c * diversity_factor * (1/10)

/-- Embedding of `_score_candidates`: write the score into each candidate,
then stable-sort descending by score.  The `loved` parameter mirrors the
source's unused `loved_titles` computation. -/
def score_candidates (cands : List Movie) (p : TasteProfile)
    (loved : List Movie) (d : ℚ) : List Movie :=
  ssort (fun a b => decide (b.recommendation_score ≤ a.recommendation_score))
    (cands.map (fun c => { c with recommendation_score := score_candidate c p d }))

/-- Candidate gathering loop of `generate_recommendations` (step 3): for each
loved movie, take the collaborator's similar movies, drop any whose slug is
in the exclusion set, and annotate provenance and `base_similarity`. -/
def gather_candidates (loved : List Movie) (findSimilar : String → List Movie)
    (excluded : List String) : List Movie :=
  loved.flatMap (fun m =>
    ((findSimilar (create_slug m.title)).filter
        (fun c => decide (create_slug c.title ∉ excluded))).map
      (fun c => { c with similar_to := m.title
                       , base_similarity := c.similarity_score }))

/-- Selection loop of `_select_top_recommendations`: greedily keep candidates
whose slug is unseen and whose 'type' is not 'loved'; the length test against
`num` runs after appending, and `seen` grows in lockstep with the output. -/
def select_top (num : ℕ) : List Movie → List String → List Movie
  | [], _ => []
  | c :: cs, seen =>
    if create_slug c.title ∉ seen ∧ c.ctype ≠ "loved" then
      if num ≤ seen.length + 1 then [c]
      else c :: select_top num cs (create_slug c.title :: seen)
    else select_top num cs seen

/-- Embedding of `generate_recommendations`, modelling its `recommendations`
output field.  The external `find_similar_movies` collaborator is a
parameter; a `none` rated list defaults the exclusion set to the loved films.
The vector-store bookkeeping (step 2) and map/insight construction (step 6)
do not affect this field. -/
def generate_recommendations (loved : List Movie) (rated : Option (List Movie))
    (findSimilar : String → List Movie) (num : ℕ) (d : ℚ) : List Movie :=
  let ratedList := rated.getD loved
  let excluded := ratedList.map (fun m => create_slug m.title)
  let profile := analyze_taste_profile loved
  let cands := gather_candidates loved findSimilar excluded
  select_top num (score_candidates cands profile loved d) []

/-- Profile of the spec's worked scoring scenario (only `top_genres`
matters: the candidate's genre matches fully). -/
def scenario_profile : TasteProfile :=
  { top_genres := ["Drama"], top_themes := [], top_directors := []
  , top_actors := [], top_decades := [], top_moods := []
  , genre_distribution := [], total_movies := 0, average_year := 0 }

/-- Candidate of the spec's worked scoring scenario: base similarity 0.8,
full genre match, no themes, director not in the profile, and year 1818 so
that recency is exactly 0.9. -/
def scenario_candidate : Movie :=
  { defaultMovie with
      base_similarity := 4/5
      genres := ["Drama"]
      director := "Unknown"
      year := some 1818 }

/-- Loved-films input of the C3 evaluation witness. -/
def w3_loved : List Movie := [{ defaultMovie with title := "Alpha" }]

/-- Candidate returned by the similarity collaborator in the C3 witness. -/
def w3_cand : Movie :=
  { defaultMovie with title := "Beta", similarity_score := 1/2 }

/-- Recommendation produced by the pipeline in the C3 witness: the candidate
annotated with provenance, base similarity and its recommendation score. -/
def w3_rec : Movie :=
  { defaultMovie with
      title := "Beta"
      similarity_score := 1/2
      similar_to := "Alpha"
      base_similarity := 1/2
      recommendation_score :=
        score_candidate
          { defaultMovie with
              title := "Beta"
              similarity_score := 1/2
              similar_to := "Alpha"
              base_similarity := 1/2 }
          (analyze_taste_profile w3_loved) (3/10) }

/-- One low/high threshold block of a narrator function: the gated dimension,
the two thresholds and the low/high-pole sentences (absent when the source
has no branch for that pole). -/
structure NarrationRule where
  dim : String
  lowThr : ℚ
  low : Option String
  highThr : ℚ
  high : Option String

/-- Sentences a rule contributes for the score map `f`, mirroring the
if/elif shape of the source blocks. -/
def ruleSentences (f : String → ℚ) (r : NarrationRule) : List String :=
  match r.low with
  | some s =>
    if f r.dim < r.lowThr then [s]
    else
      match r.high with
      | some t => if r.highThr < f r.dim then [t] else []
      | none => []
  | none =>
    match r.high with
    | some t => if r.highThr < f r.dim then [t] else []
    | none => []

/-- Sentence list (`parts`) a narrator function builds for score map `f`. -/
def narrateParts (rules : List NarrationRule) (f : String → ℚ) : List String :=
  rules.flatMap (ruleSentences f)

/-- Threshold blocks of `_narrate_visual_taste`, in source order. -/
def visualRules : List NarrationRule :=
  [ { dim := "color_palette_psychology", lowThr := 3
    , low := some "You gravitate toward muted, desaturated color palettes that evoke melancholy and earthbound realism."
    , highThr := 5
    , high := some "You respond to saturated, neon-drenched visuals that create heightened, dreamlike intensity." }
  , { dim := "lighting_philosophy", lowThr := 3
    , low := some "You prefer naturalistic lighting that captures the world as it is, unmanipulated."
    , highThr := 5
    , high := some "You\x27re drawn to expressionistic chiaroscuro lighting that sculpts psychological landscapes." }
  , { dim := "camera_movement_personality", lowThr := 3
    , low := some "You value static, contemplative camera work that observes from respectful distance."
    , highThr := 5
    , high := some "You connect with kinetic, handheld cinematography that puts you inside the nervous system of the story." }
  , { dim := "cinematic_realism_spectrum", lowThr := 3
    , low := some "You trust observational realism over stylization."
    , highThr := 5
    , high := some "You embrace surreal dreamscapes where subconscious truth supersedes literal reality." } ]

/-- Threshold blocks of `_narrate_rhythm_taste`. -/
def rhythmRules : List NarrationRule :=
  [ { dim := "editing_tempo", lowThr := 3
    , low := some "You have patience for long takes and meditative pacing that allows you to sit with images."
    , highThr := 5
    , high := some "You respond to rapid montage and kinetic editing that creates visceral momentum." }
  , { dim := "temporal_structure", lowThr := 3, low := none
    , highThr := 5
    , high := some "You embrace nonlinear narrative structures that mirror how memory actually works." } ]

/-- Threshold blocks of `_narrate_sound_taste`. -/
def soundRules : List NarrationRule :=
  [ { dim := "score_emotional_temperature", lowThr := 3
    , low := some "You\x27re drawn to melancholic, minor-key scores that amplify sorrow and loss."
    , highThr := 5
    , high := some "You connect with triumphant, soaring music that offers emotional uplift." }
  , { dim := "silence_as_tool", lowThr := 3, low := none
    , highThr := 5
    , high := some "You value radical use of silence as space for contemplation and discomfort." }
  , { dim := "soundscape_texture", lowThr := 3
    , low := some "You prefer quiet, intimate soundscapes that capture interior emotional space."
    , highThr := 5
    , high := some "You respond to overwhelming sensory saturation in sound design." } ]

/-- Threshold blocks of `_narrate_quality_taste`.  Note the two blocks gated
at 2.5/5.5 instead of 3/5. -/
def qualityRules : List NarrationRule :=
  [ { dim := "craft_precision_vs_rawness", lowThr := 3
    , low := some "You value raw expressiveness and emotional immediacy over polished perfection—craft can get in the way of truth."
    , highThr := 5
    , high := some "You find deep satisfaction in meticulous formal mastery where every frame is composed with visual intelligence." }
  , { dim := "art_cinema_vs_pop_cinema_mode", lowThr := 3
    , low := some "You prefer art-cinema mode: ambiguity, slowness, existential inquiry that rewards patience."
    , highThr := 5
    , high := some "You prefer pop-cinema mode: clarity, momentum, satisfying plot escalation and kinetic pleasure." }
  , { dim := "narrative_ambition_level", lowThr := 5/2
    , low := some "You seek pure sensory thrill and spectacle over thematic density."
    , highThr := 11/2
    , high := some "You want cinema to wrestle with mythic themes—existence, mortality, the human condition writ large." }
  , { dim := "irony_sincerity_register", lowThr := 3
    , low := some "You need films to take emotion seriously without ironic distance—full sincerity is essential."
    , highThr := 5
    , high := some "You prefer self-aware, meta-textual cinema that maintains ironic distance from pure emotion." }
  , { dim := "emotional_weight_tolerance", lowThr := 5/2
    , low := some "You use cinema for restoration and comfort—emotional heaviness feels overwhelming."
    , highThr := 11/2
    , high := some "You seek devastating emotional weight and unrelenting intensity—light films feel trivial." }
  , { dim := "performance_style_preference", lowThr := 3
    , low := some "You want acting to disappear into naturalistic behavioral truth."
    , highThr := 5
    , high := some "You love watching visible craft in heightened theatrical performances." }
  , { dim := "script_construction_visibility", lowThr := 3, low := none
    , highThr := 5
    , high := some "You find pleasure in intricate narrative architecture and visible structural intelligence." }
  , { dim := "auteur_intentionality_desire", lowThr := 3, low := none
    , highThr := 5
    , high := some "You respond to singular directorial vision and total artistic control." } ]

/-- Threshold blocks of `_narrate_story_taste`. -/
def storyRules : List NarrationRule :=
  [ { dim := "philosophical_stance", lowThr := 3
    , low := some "You connect with humanist narratives that maintain hope in human goodness and meaningful connection."
    , highThr := 5
    , high := some "You\x27re drawn to cynical or nihilistic worldviews that refuse easy comfort." }
  , { dim := "ending_resolution", lowThr := 3, low := none
    , highThr := 5
    , high := some "You prefer films that end in radical ambiguity, trusting you to live with unanswered questions." }
  , { dim := "moral_complexity", lowThr := 3, low := none
    , highThr := 5
    , high := some "You value moral ambiguity where every character is compromised and human." }
  , { dim := "relationship_to_class", lowThr := 3, low := none
    , highThr := 5
    , high := some "You notice when economic reality shapes everything, seeing class as central to human experience." } ]

/-- Threshold blocks of `_narrate_emotional_taste`. -/
def emotionalRules : List NarrationRule :=
  [ { dim := "emotional_temperature", lowThr := 3
    , low := some "You process emotion through distance and observation, intellectualizing feeling."
    , highThr := 5
    , high := some "You need raw, unfiltered emotional intensity and aren\x27t afraid of messiness." }
  , { dim := "vulnerability_exposure", lowThr := 3, low := none
    , highThr := 5
    , high := some "You crave total emotional exposure, needing to see people break completely." }
  , { dim := "mystery_comfort", lowThr := 3, low := none
    , highThr := 5
    , high := some "You\x27re comfortable with radical inexplicability, embracing films that never explain themselves." }
  , { dim := "beauty_priority", lowThr := 3
    , low := some "Every frame must be aesthetically composed—you need beauty as refuge."
    , highThr := 5
    , high := some "You distrust beauty as lie, preferring deliberate ugliness as honesty." } ]

/-- All six categories' rules. -/
def allNarrationRules : List NarrationRule :=
  visualRules ++ rhythmRules ++ soundRules ++ qualityRules ++ storyRules ++
    emotionalRules

/-- Prose output of `_narrate_visual_taste` (the parts joined by spaces). -/
def narrate_visual_taste (f : String → ℚ) : String :=
  String.intercalate " " (narrateParts visualRules f)

/-- Prose output of `_narrate_rhythm_taste`. -/
def narrate_rhythm_taste (f : String → ℚ) : String :=
  String.intercalate " " (narrateParts rhythmRules f)

/-- Prose output of `_narrate_sound_taste`. -/
def narrate_sound_taste (f : String → ℚ) : String :=
  String.intercalate " " (narrateParts soundRules f)

/-- Prose output of `_narrate_quality_taste`. -/
def narrate_quality_taste (f : String → ℚ) : String :=
  String.intercalate " " (narrateParts qualityRules f)

/-- Prose output of `_narrate_story_taste`. -/
def narrate_story_taste (f : String → ℚ) : String :=
  String.intercalate " " (narrateParts storyRules f)

/-- Prose output of `_narrate_emotional_taste`. -/
def narrate_emotional_taste (f : String → ℚ) : String :=
  String.intercalate " " (narrateParts emotionalRules f)

lemma contribs_nil (d : String) : contribs [] d = [] := rfl

lemma contribs_cons (k : String) (v : Option ℚ) (rest : ScoreMap) (d : String) :
    contribs ((k, v) :: rest) d =
      (if k = d then v.toList else []) ++ contribs rest d := by
  by_cases hk : k = d
  · cases v <;> simp [contribs, List.filterMap_cons, hk, Option.toList]
  · simp [contribs, List.filterMap_cons, hk]

lemma contribs_eq_nil_of_not_mem {m : ScoreMap} {d : String}
    (h : d ∉ mapKeys m) : contribs m d = [] := by
  induction m with
  | nil => rfl
  | cons p rest ih =>
    obtain ⟨k, v⟩ := p
    simp only [mapKeys, List.map_cons, List.mem_cons, not_or] at h
    rw [contribs_cons, if_neg (fun hh => h.1 hh.symm)]
    exact ih h.2

lemma contribs_length_le_one {m : ScoreMap} {d : String}
    (h : (mapKeys m).Nodup) : (contribs m d).length ≤ 1 := by
  induction m with
  | nil => simp [contribs]
  | cons p rest ih =>
    obtain ⟨k, v⟩ := p
    simp only [mapKeys, List.map_cons, List.nodup_cons] at h
    rw [contribs_cons]
    by_cases hd : k = d
    · subst hd
      have h0 : contribs rest k = [] := contribs_eq_nil_of_not_mem h.1
      cases v <;> simp [h0, Option.toList]
    · rw [if_neg hd]
      simpa using ih h.2

lemma dimension_sum_cons (m : ScoreMap) (rest : List ScoreMap) (d : String) :
    dimension_sum (m :: rest) d = (contribs m d).sum + dimension_sum rest d := by
  simp [dimension_sum]

lemma dimension_count_cons (m : ScoreMap) (rest : List ScoreMap) (d : String) :
    dimension_count (m :: rest) d = (contribs m d).length + dimension_count rest d := by
  simp [dimension_count]

lemma suppliers_cons (m : ScoreMap) (rest : List ScoreMap) (d : String) :
    suppliers (m :: rest) d =
      if contribs m d = [] then suppliers rest d else m :: suppliers rest d := by
  simp only [suppliers, List.filter_cons]
  by_cases h : contribs m d = [] <;> simp [h]

lemma dimension_sum_suppliers (movies : List ScoreMap) (d : String) :
    dimension_sum movies d =
      ((suppliers movies d).map (fun m => (contribs m d).sum)).sum := by
  induction movies with
  | nil => rfl
  | cons m rest ih =>
    rw [dimension_sum_cons, suppliers_cons]
    by_cases h : contribs m d = []
    · simp [h, ih]
    · simp [h, ih]

lemma dimension_count_pos_iff (movies : List ScoreMap) (d : String) :
    0 < dimension_count movies d ↔ suppliers movies d ≠ [] := by
  induction movies with
  | nil => simp [dimension_count, suppliers]
  | cons m rest ih =>
    rw [dimension_count_cons, suppliers_cons]
    by_cases h : contribs m d = []
    · simp [h, ih]
    · have : 0 < (contribs m d).length := List.length_pos.mpr h
      simp [h]
      omega

lemma dimension_count_suppliers (movies : List ScoreMap) (d : String)
    (hkeys : ∀ m ∈ movies, (mapKeys m).Nodup) :
    dimension_count movies d = (suppliers movies d).length := by
  induction movies with
  | nil => rfl
  | cons m rest ih =>
    have hm := hkeys m (List.mem_cons_self m rest)
    have hrest := ih (fun x hx => hkeys x (List.mem_cons_of_mem m hx))
    rw [dimension_count_cons, suppliers_cons]
    by_cases h : contribs m d = []
    · simp [h, hrest]
    · have h1 : (contribs m d).length = 1 := by
        have hle := contribs_length_le_one (m := m) (d := d) hm
        have hpos : 0 < (contribs m d).length := List.length_pos.mpr h
        omega
      rw [if_neg h]
      simp only [List.length_cons, h1, hrest]
      omega

/-- C1: the aggregate score computed for each of the 62 registered dimensions
equals the arithmetic mean of the scores of exactly those movies that supply
that dimension; if no movie supplies it (including the empty input list), the
aggregate for that dimension is exactly 4.0, and no error is raised (the
embedding `calculate_average_scores` is a total function). -/
theorem average_scores_ok (movies : List ScoreMap) (d : String)
    (hd : d ∈ dimension_names)
    (hkeys : ∀ m ∈ movies, (mapKeys m).Nodup) :
    dimension_names.length = 62 ∧
    (∀ m ∈ suppliers movies d, ∃ s, contribs m d = [s]) ∧
    (suppliers movies d = [] → calculate_average_scores movies d = 4) ∧
    (suppliers movies d ≠ [] →
      calculate_average_scores movies d =
        ((suppliers movies d).map (fun m => (contribs m d).sum)).sum
          / ((suppliers movies d).length : ℚ)) := by
  refine ⟨by decide, ?_, ?_, ?_⟩
  · intro m hm
    have hmem : m ∈ movies := List.mem_of_mem_filter hm
    have hne : contribs m d ≠ [] := by
      have := List.of_mem_filter hm
      simpa [List.isEmpty_iff] using this
    have hle := contribs_length_le_one (m := m) (d := d) (hkeys m hmem)
    match hc : contribs m d with
    | [] => exact absurd hc hne
    | [s] => exact ⟨s, rfl⟩
    | s :: t :: u => rw [hc] at hle; simp at hle
  · intro h
    have : ¬ 0 < dimension_count movies d := by
      rw [dimension_count_pos_iff]; simp [h]
    simp [calculate_average_scores, this]
  · intro h
    have hpos : 0 < dimension_count movies d := (dimension_count_pos_iff movies d).mpr h
    rw [calculate_average_scores, if_pos hpos, dimension_sum_suppliers,
      dimension_count_suppliers movies d hkeys]

/-- Witness for C1 at a concrete input: two movies supply `editing_tempo`
(scores 6 and 3, one of them alongside an unregistered key and a `None`
score), so the aggregate is (6+3)/2 = 9/2. -/
theorem average_scores_ok_witness :
    calculate_average_scores
      [ [("editing_tempo", some 6), ("bogus_dimension", some 3),
         ("narrative_rhythm", none)]
      , [("editing_tempo", some 3)] ] "editing_tempo" = 9/2 := by
  have h := (average_scores_ok
      [ [("editing_tempo", some 6), ("bogus_dimension", some 3),
         ("narrative_rhythm", none)]
      , [("editing_tempo", some 3)] ] "editing_tempo"
      (by decide) (by decide)).2.2.2 (by decide)
  rw [h]
  have hb : ("bogus_dimension" = "editing_tempo") = False := by simp
  norm_num [suppliers, suppliers_cons, contribs_cons, contribs_nil, Option.toList, hb]

/-- C10: removing every entry whose dimension name is not registered, and
every entry whose score is `None`, from each movie's score map leaves the
aggregate score of every registered dimension unchanged. -/
theorem clean_scores_ok (movies : List ScoreMap) (d : String)
    (hd : d ∈ dimension_names) :
    calculate_average_scores
        (movies.map (fun m =>
          m.filter (fun p => decide (p.1 ∈ dimension_names) && p.2.isSome))) d
      = calculate_average_scores movies d := by
  have hc : ∀ m : ScoreMap,
      contribs (m.filter (fun p => decide (p.1 ∈ dimension_names) && p.2.isSome)) d
        = contribs m d := by
    intro m
    induction m with
    | nil => rfl
    | cons p rest ih =>
      obtain ⟨k, v⟩ := p
      rw [List.filter_cons]
      by_cases hk : k = d
      · subst hk
        cases v with
        | none => simp [contribs_cons, hd, ih, Option.toList]
        | some s => simp [contribs_cons, hd, ih]
      · by_cases hkeep : (decide (k ∈ dimension_names) && (v.isSome)) = true
        · simp only [hkeep, if_pos]
          rw [contribs_cons, contribs_cons, if_neg hk, ih]
        · simp only [hkeep]
          rw [if_neg (by simpa using hkeep), contribs_cons, if_neg hk, ih]
          simp
  have hsum : dimension_sum
      (movies.map (fun m =>
        m.filter (fun p => decide (p.1 ∈ dimension_names) && p.2.isSome))) d
      = dimension_sum movies d := by
    simp only [dimension_sum, List.map_map]
    refine congrArg List.sum (List.map_congr_left ?_)
    intro m hm
    simp [Function.comp, hc m]
  have hcount : dimension_count
      (movies.map (fun m =>
        m.filter (fun p => decide (p.1 ∈ dimension_names) && p.2.isSome))) d
      = dimension_count movies d := by
    simp only [dimension_count, List.map_map]
    refine congrArg List.sum (List.map_congr_left ?_)
    intro m hm
    simp [Function.comp, hc m]
  rw [calculate_average_scores, calculate_average_scores, hsum, hcount]

lemma mem_sinsert (le : α → α → Bool) (x z : α) (l : List α) :
    z ∈ sinsert le x l ↔ z = x ∨ z ∈ l := by
  induction l with
  | nil => simp [sinsert]
  | cons y ys ih =>
    rw [sinsert]
    by_cases h : le y x
    · simp [h, ih]
      tauto
    · simp [h]

lemma length_sinsert (le : α → α → Bool) (x : α) (l : List α) :
    (sinsert le x l).length = l.length + 1 := by
  induction l with
  | nil => rfl
  | cons y ys ih =>
    rw [sinsert]
    by_cases h : le y x <;> simp [h, ih]

lemma mem_ssort_aux (le : α → α → Bool) (z : α) :
    ∀ (l acc : List α),
      (z ∈ l.foldl (fun acc x => sinsert le x acc) acc ↔ z ∈ acc ∨ z ∈ l) := by
  intro l
  induction l with
  | nil => simp
  | cons x xs ih =>
    intro acc
    rw [List.foldl_cons, ih, mem_sinsert]
    simp
    tauto

lemma mem_ssort (le : α → α → Bool) (z : α) (l : List α) :
    z ∈ ssort le l ↔ z ∈ l := by
  rw [ssort, mem_ssort_aux]
  simp

lemma length_ssort_aux (le : α → α → Bool) :
    ∀ (l acc : List α),
      (l.foldl (fun acc x => sinsert le x acc) acc).length
        = acc.length + l.length := by
  intro l
  induction l with
  | nil => simp
  | cons x xs ih =>
    intro acc
    rw [List.foldl_cons, ih, length_sinsert, List.length_cons]
    omega

lemma length_ssort (le : α → α → Bool) (l : List α) :
    (ssort le l).length = l.length := by
  rw [ssort, length_ssort_aux]
  simp

lemma sinsert_pairwise (le : α → α → Bool) (R : α → α → Prop) (x : α)
    (l : List α) (hl : l.Pairwise R)
    (hins : ∀ y ∈ l, le y x = true → R y x)
    (hskip : ∀ y ∈ l, le y x = false → R x y)
    (htrans : ∀ y ∈ l, ∀ z ∈ l, le y x = false → R y z → R x z) :
    (sinsert le x l).Pairwise R := by
  induction l with
  | nil => simp [sinsert]
  | cons y ys ih =>
    rw [sinsert]
    rcases List.pairwise_cons.mp hl with ⟨hy, hys⟩
    by_cases h : le y x
    · rw [if_pos h]
      refine List.pairwise_cons.mpr ⟨?_, ?_⟩
      · intro z hz
        rcases (mem_sinsert le x z ys).mp hz with rfl | hzys
        · exact hins y (List.mem_cons_self y ys) h
        · exact hy z hzys
      · exact ih hys
          (fun a ha hle => hins a (List.mem_cons_of_mem y ha) hle)
          (fun a ha hle => hskip a (List.mem_cons_of_mem y ha) hle)
          (fun a ha b hb hle hr =>
            htrans a (List.mem_cons_of_mem y ha) b (List.mem_cons_of_mem y hb) hle hr)
    · rw [if_neg h]
      refine List.pairwise_cons.mpr ⟨?_, hl⟩
      intro z hz
      rcases List.mem_cons.mp hz with rfl | hzys
      · exact hskip z (List.mem_cons_self z ys) (by simpa using h)
      · exact htrans y (List.mem_cons_self y ys) z (List.mem_cons_of_mem y hzys)
          (by simpa using h) (hy z hzys)

lemma ssort_pairwise_aux (le : α → α → Bool) (R : α → α → Prop) (idx : α → ℕ)
    (h1 : ∀ x y, le y x = true → idx y < idx x → R y x)
    (h2 : ∀ x y, le y x = false → R x y)
    (h3 : ∀ x y z, le y x = false → R y z → R x z) :
    ∀ (l acc : List α), acc.Pairwise R →
      (∀ y ∈ acc, ∀ x ∈ l, idx y < idx x) →
      l.Pairwise (fun p q => idx p < idx q) →
      (l.foldl (fun acc x => sinsert le x acc) acc).Pairwise R := by
  intro l
  induction l with
  | nil => intro acc hacc _ _; simpa using hacc
  | cons x xs ih =>
    intro acc hacc hlt hidx
    rcases List.pairwise_cons.mp hidx with ⟨hxlt, hxs⟩
    rw [List.foldl_cons]
    refine ih (sinsert le x acc) ?_ ?_ hxs
    · refine sinsert_pairwise le R x acc hacc ?_ ?_ ?_
      · intro y hy hle
        exact h1 x y hle (hlt y hy x (List.mem_cons_self x xs))
      · intro y hy hle
        exact h2 x y hle
      · intro y hy z hz hle hr
        exact h3 x y z hle hr
    · intro y hy z hz
      rcases (mem_sinsert le x y acc).mp hy with rfl | hyacc
      · exact hxlt z hz
      · exact hlt y hyacc z (List.mem_cons_of_mem x hz)

lemma ssort_pairwise (le : α → α → Bool) (R : α → α → Prop) (idx : α → ℕ)
    (h1 : ∀ x y, le y x = true → idx y < idx x → R y x)
    (h2 : ∀ x y, le y x = false → R x y)
    (h3 : ∀ x y z, le y x = false → R y z → R x z)
    (l : List α) (hidx : l.Pairwise (fun p q => idx p < idx q)) :
    (ssort le l).Pairwise R :=
  ssort_pairwise_aux le R idx h1 h2 h3 l [] (by simp) (by simp) hidx

lemma nodup_dimension_names : dimension_names.Nodup := by decide

lemma pairwise_regIndex :
    dimension_names.Pairwise (fun a b => regIndex a < regIndex b) := by
  rw [List.pairwise_iff_getElem]
  intro i j hi hj hij
  have ha := List.indexOf_getElem nodup_dimension_names i hi
  have hb := List.indexOf_getElem nodup_dimension_names j hj
  simp only [regIndex]
  rw [ha, hb]
  exact hij

lemma pairwise_strong_low_all (f : String → ℚ) :
    (strong_low_all f).Pairwise (fun p q => regIndex p.1 < regIndex q.1) := by
  rw [strong_low_all, List.pairwise_map]
  exact pairwise_regIndex.filter _

lemma pairwise_strong_high_all (f : String → ℚ) :
    (strong_high_all f).Pairwise (fun p q => regIndex p.1 < regIndex q.1) := by
  rw [strong_high_all, List.pairwise_map]
  exact pairwise_regIndex.filter _

lemma mem_strong_low_all {f : String → ℚ} {p : String × ℚ}
    (hp : p ∈ strong_low_all f) :
    p.1 ∈ dimension_names ∧ p.2 = f p.1 ∧ p.2 ≤ 5/2 := by
  rw [strong_low_all, List.mem_map] at hp
  obtain ⟨a, ha, rfl⟩ := hp
  rw [List.mem_filter] at ha
  exact ⟨ha.1, rfl, by simpa using ha.2⟩

lemma mem_strong_high_all {f : String → ℚ} {p : String × ℚ}
    (hp : p ∈ strong_high_all f) :
    p.1 ∈ dimension_names ∧ p.2 = f p.1 ∧ 11/2 ≤ p.2 := by
  rw [strong_high_all, List.mem_map] at hp
  obtain ⟨a, ha, rfl⟩ := hp
  rw [List.mem_filter] at ha
  exact ⟨ha.1, rfl, by simpa using ha.2⟩

lemma mem_strong_low {f : String → ℚ} {p : String × ℚ}
    (hp : p ∈ strong_low f) :
    p.1 ∈ dimension_names ∧ p.2 = f p.1 ∧ p.2 ≤ 5/2 :=
  mem_strong_low_all
    ((mem_ssort _ _ _).mp ((List.take_sublist 10 _).subset hp))

lemma mem_strong_high {f : String → ℚ} {p : String × ℚ}
    (hp : p ∈ strong_high f) :
    p.1 ∈ dimension_names ∧ p.2 = f p.1 ∧ 11/2 ≤ p.2 :=
  mem_strong_high_all
    ((mem_ssort _ _ _).mp ((List.take_sublist 10 _).subset hp))

/-- C4 (amended): `_identify_strong_preferences` puts only dimensions with
score ≤ 2.5 in the low-pole list and only dimensions with score ≥ 5.5 in the
high-pole list (so the lists never share a dimension name), each list has at
most 10 entries, each list is ordered most-extreme first with ties in
dimension registration order, and whenever at most 10 dimensions qualify for
a pole the list contains exactly the qualifying dimensions.  (The claim's
unconditional "in the list iff score ≤ 2.5 / ≥ 5.5" fails when more than 10
dimensions qualify, because of the cap — see the counterexample.) -/
theorem strong_preferences_ok (f : String → ℚ) :
    (∀ p ∈ strong_low f, p.1 ∈ dimension_names ∧ p.2 = f p.1 ∧ p.2 ≤ 5/2) ∧
    (∀ p ∈ strong_high f, p.1 ∈ dimension_names ∧ p.2 = f p.1 ∧ 11/2 ≤ p.2) ∧
    (∀ p ∈ strong_low f, ∀ q ∈ strong_high f, p.1 ≠ q.1) ∧
    (strong_low f).length ≤ 10 ∧ (strong_high f).length ≤ 10 ∧
    (strong_low f).Pairwise
      (fun p q => p.2 < q.2 ∨ (p.2 = q.2 ∧ regIndex p.1 < regIndex q.1)) ∧
    (strong_high f).Pairwise
      (fun p q => q.2 < p.2 ∨ (p.2 = q.2 ∧ regIndex p.1 < regIndex q.1)) ∧
    ((dimension_names.filter (fun d => decide (f d ≤ 5/2))).length ≤ 10 →
      ∀ d, d ∈ (strong_low f).map Prod.fst ↔ d ∈ dimension_names ∧ f d ≤ 5/2) ∧
    ((dimension_names.filter (fun d => decide (11/2 ≤ f d))).length ≤ 10 →
      ∀ d, d ∈ (strong_high f).map Prod.fst ↔ d ∈ dimension_names ∧ 11/2 ≤ f d) := by
  refine ⟨fun p hp => mem_strong_low hp, fun p hp => mem_strong_high hp,
    ?_, ?_, ?_, ?_, ?_, ?_, ?_⟩
  · intro p hp q hq heq
    have h1 := mem_strong_low hp
    have h2 := mem_strong_high hq
    have : (11:ℚ)/2 ≤ 5/2 := by
      calc (11:ℚ)/2 ≤ q.2 := h2.2.2
        _ = f q.1 := h2.2.1
        _ = f p.1 := by rw [heq]
        _ = p.2 := h1.2.1.symm
        _ ≤ 5/2 := h1.2.2
    norm_num at this
  · simpa [strong_low] using List.length_take_le 10 _
  · simpa [strong_high] using List.length_take_le 10 _
  · refine List.Pairwise.sublist (List.take_sublist 10 _) ?_
    refine ssort_pairwise _ _ (fun p => regIndex p.1) ?_ ?_ ?_ _
      (pairwise_strong_low_all f)
    · intro x y hle hidx
      rcases lt_or_eq_of_le (by simpa using hle : y.2 ≤ x.2) with h | h
      · exact Or.inl h
      · exact Or.inr ⟨h, hidx⟩
    · intro x y hle
      exact Or.inl (by simpa using lt_of_not_le (by simpa using hle))
    · intro x y z hle hr
      have hxy : x.2 < y.2 := lt_of_not_le (by simpa using hle)
      rcases hr with h | h
      · exact Or.inl (hxy.trans h)
      · exact Or.inl (h.1 ▸ hxy)
  · refine List.Pairwise.sublist (List.take_sublist 10 _) ?_
    refine ssort_pairwise _ _ (fun p => regIndex p.1) ?_ ?_ ?_ _
      (pairwise_strong_high_all f)
    · intro x y hle hidx
      rcases lt_or_eq_of_le (by simpa using hle : x.2 ≤ y.2) with h | h
      · exact Or.inl h
      · exact Or.inr ⟨h.symm, hidx⟩
    · intro x y hle
      exact Or.inl (by simpa using lt_of_not_le (by simpa using hle))
    · intro x y z hle hr
      have hxy : y.2 < x.2 := lt_of_not_le (by simpa using hle)
      rcases hr with h | h
      · exact Or.inl (h.trans hxy)
      · exact Or.inl (h.1.symm ▸ hxy)
  · intro hlen d
    have hall : (strong_low_all f).length ≤ 10 := by
      simpa [strong_low_all] using hlen
    have htake : strong_low f = ssort (fun p q => decide (p.2 ≤ q.2)) (strong_low_all f) := by
      rw [strong_low]
      exact List.take_of_length_le (by rw [length_ssort]; exact hall)
    constructor
    · intro hd
      rw [List.mem_map] at hd
      obtain ⟨p, hp, rfl⟩ := hd
      have h := mem_strong_low hp
      exact ⟨h.1, h.2.1 ▸ h.2.2⟩
    · intro ⟨hd, hle⟩
      rw [htake, List.mem_map]
      refine ⟨(d, f d), (mem_ssort _ _ _).mpr ?_, rfl⟩
      rw [strong_low_all, List.mem_map]
      exact ⟨d, List.mem_filter.mpr ⟨hd, by simpa using hle⟩, rfl⟩
  · intro hlen d
    have hall : (strong_high_all f).length ≤ 10 := by
      simpa [strong_high_all] using hlen
    have htake : strong_high f = ssort (fun p q => decide (q.2 ≤ p.2)) (strong_high_all f) := by
      rw [strong_high]
      exact List.take_of_length_le (by rw [length_ssort]; exact hall)
    constructor
    · intro hd
      rw [List.mem_map] at hd
      obtain ⟨p, hp, rfl⟩ := hd
      have h := mem_strong_high hp
      exact ⟨h.1, h.2.1 ▸ h.2.2⟩
    · intro ⟨hd, hle⟩
      rw [htake, List.mem_map]
      refine ⟨(d, f d), (mem_ssort _ _ _).mpr ?_, rfl⟩
      rw [strong_high_all, List.mem_map]
      exact ⟨d, List.mem_filter.mpr ⟨hd, by simpa using hle⟩, rfl⟩

/-- Counterexample for C4 as stated: when every dimension scores 2.0, all 62
dimensions qualify for the low-pole list, but the 10-entry cap drops all but
the first ten, so `color_temperature` (registration index 10) has score
≤ 2.5 yet is absent from the low-pole list — the unconditional "in the list
iff score ≤ 2.5" is false. -/
theorem strong_preferences_cap_counterexample :
    ((fun _ : String => (2:ℚ)) "color_temperature" ≤ 5/2) ∧
    "color_temperature" ∈ dimension_names ∧
    "color_temperature" ∉ (strong_low (fun _ => (2:ℚ))).map Prod.fst := by
  refine ⟨by norm_num, by decide, ?_⟩
  have h1 : ((2:ℚ) ≤ 5/2) = True := by norm_num
  have h2 : ((2:ℚ) ≤ 2) = True := by norm_num
  simp [strong_low, strong_low_all, dimension_names, ssort, sinsert,
    List.filter_cons, h1, h2]

/-- Witness for C4 (amended) at a concrete score map with one low and one
high dimension: both conditional iffs apply and `narrative_rhythm` appears in
the low-pole list. -/
theorem strong_preferences_ok_witness :
    ("narrative_rhythm" ∈
        (strong_low (fun d => if d = "editing_tempo" then 6
          else if d = "narrative_rhythm" then 2 else 4)).map Prod.fst) ∧
    ("editing_tempo" ∈
        (strong_high (fun d => if d = "editing_tempo" then 6
          else if d = "narrative_rhythm" then 2 else 4)).map Prod.fst) := by
  have h := strong_preferences_ok (fun d => if d = "editing_tempo" then 6
    else if d = "narrative_rhythm" then 2 else 4)
  have e1 : ((6:ℚ) ≤ 5/2) = False := by norm_num
  have e2 : ((2:ℚ) ≤ 5/2) = True := by norm_num
  have e3 : ((4:ℚ) ≤ 5/2) = False := by norm_num
  have e4 : ((11:ℚ)/2 ≤ 6) = True := by norm_num
  have e5 : ((11:ℚ)/2 ≤ 2) = False := by norm_num
  have e6 : ((11:ℚ)/2 ≤ 4) = False := by norm_num
  refine ⟨(h.2.2.2.2.2.2.2.1 ?_ "narrative_rhythm").mpr ⟨by decide, by simp; norm_num⟩,
    (h.2.2.2.2.2.2.2.2 ?_ "editing_tempo").mpr ⟨by decide, by simp; norm_num⟩⟩
  · simp [dimension_names, List.filter_cons, e1, e2, e3]
  · simp [dimension_names, List.filter_cons, e4, e5, e6]

/-- C5: every taste vector has exactly 62 entries in the fixed registered
dimension order, entry i equals (avg_i - 1)/6, the normalization is monotonic,
maps 1, 4, 7 to exactly 0, 1/2, 1, and keeps every entry in [0,1] whenever
every aggregate score is in [1,7]. -/
theorem taste_vector_ok (f : String → ℚ) :
    (create_taste_vector f).length = 62 ∧
    (∀ (i : ℕ) (d : String), dimension_names[i]? = some d →
      (create_taste_vector f)[i]? = some (normalizeScore (f d))) ∧
    (∀ a b : ℚ, a ≤ b → normalizeScore a ≤ normalizeScore b) ∧
    normalizeScore 1 = 0 ∧ normalizeScore 4 = 1/2 ∧ normalizeScore 7 = 1 ∧
    ((∀ d ∈ dimension_names, 1 ≤ f d ∧ f d ≤ 7) →
      ∀ x ∈ create_taste_vector f, 0 ≤ x ∧ x ≤ 1) := by
  refine ⟨by simp [create_taste_vector]; rfl, ?_, ?_, ?_, ?_, ?_, ?_⟩
  · intro i d hd
    simp [create_taste_vector, List.getElem?_map, hd]
  · intro a b hab
    rw [normalizeScore, normalizeScore]
    linarith
  · norm_num [normalizeScore]
  · norm_num [normalizeScore]
  · norm_num [normalizeScore]
  · intro hf x hx
    simp only [create_taste_vector, List.map_map, List.mem_map,
      Function.comp] at hx
    obtain ⟨d, hd, rfl⟩ := hx
    have h := hf d hd
    constructor
    · rw [normalizeScore]
      apply div_nonneg (by linarith) (by norm_num)
    · rw [normalizeScore]
      rw [div_le_one (by norm_num : (0:ℚ) < 6)]
      linarith

/-- Witness for C5 at the all-neutral aggregate map: 62 entries and entry 7
(`spatial_density`) is the normalized neutral value 1/2. -/
theorem taste_vector_ok_witness :
    (create_taste_vector (fun _ => 4)).length = 62 ∧
    (create_taste_vector (fun _ => 4))[7]? = some (1/2) := by
  have h := taste_vector_ok (fun _ => 4)
  refine ⟨h.1, ?_⟩
  have hidx : dimension_names[7]? = some "spatial_density" := rfl
  have he := h.2.1 7 "spatial_density" hidx
  rw [h.2.2.2.2.1] at he
  exact he

lemma dotProduct_self_nonneg (v : List ℝ) : 0 ≤ dotProduct v v := by
  induction v with
  | nil => simp [dotProduct]
  | cons x xs ih =>
    rw [dotProduct, List.zipWith_cons_cons, List.sum_cons]
    exact add_nonneg (mul_self_nonneg x) ih

/-- C6: cosine similarity of any vector with non-zero norm with itself is
exactly 1 (hence within the claim's 1e-9 tolerance), and whenever either
argument has zero norm the similarity is exactly 0. -/
theorem calculate_similarity_ok (v w : List ℝ) :
    (vecNorm v ≠ 0 → calculate_similarity v v = 1) ∧
    ((vecNorm v = 0 ∨ vecNorm w = 0) → calculate_similarity v w = 0) := by
  constructor
  · intro h
    have hd : 0 ≤ dotProduct v v := dotProduct_self_nonneg v
    have hdd : vecNorm v * vecNorm v = dotProduct v v := Real.mul_self_sqrt hd
    have hne : dotProduct v v ≠ 0 := by
      intro h0
      exact h (by rw [vecNorm, h0, Real.sqrt_zero])
    rw [calculate_similarity, if_neg (by simp [h]), hdd]
    exact div_self hne
  · intro h
    rw [calculate_similarity, if_pos h]

/-- Witness for C6: the one-dimensional vector [1] has norm 1 and
self-similarity 1, and pairing it with the zero vector [0] gives 0. -/
theorem calculate_similarity_ok_witness :
    calculate_similarity [1] [1] = 1 ∧ calculate_similarity [1] [0] = 0 := by
  have h1 := (calculate_similarity_ok [1] [1]).1
  have h2 := (calculate_similarity_ok [1] [0]).2
  have hv : vecNorm [1] = 1 := by
    simp [vecNorm, dotProduct]
  have hw : vecNorm [0] = 0 := by
    simp [vecNorm, dotProduct]
  exact ⟨h1 (by rw [hv]; norm_num), h2 (Or.inr hw)⟩

lemma mem_squashWs {c : Char} :
    ∀ (b : Bool) (l : List Char), c ∈ squashWs b l →
      c = '-' ∨ (c ∈ l ∧ isPySpace c = false) := by
  intro b l
  induction l generalizing b with
  | nil => intro h; simp [squashWs] at h
  | cons x xs ih =>
    intro h
    rw [squashWs] at h
    by_cases hx : isPySpace x
    · rw [if_pos hx] at h
      cases b with
      | true =>
        rcases ih true (by simpa using h) with h1 | h1
        · exact Or.inl h1
        · exact Or.inr ⟨List.mem_cons_of_mem x h1.1, h1.2⟩
      | false =>
        rw [if_neg (by simp)] at h
        rcases List.mem_cons.mp h with rfl | h1
        · exact Or.inl rfl
        · rcases ih true h1 with h2 | h2
          · exact Or.inl h2
          · exact Or.inr ⟨List.mem_cons_of_mem x h2.1, h2.2⟩
    · rw [if_neg hx] at h
      rcases List.mem_cons.mp h with rfl | h1
      · exact Or.inr ⟨List.mem_cons_self c xs, by simpa using hx⟩
      · rcases ih false h1 with h2 | h2
        · exact Or.inl h2
        · exact Or.inr ⟨List.mem_cons_of_mem x h2.1, h2.2⟩

lemma squashWs_eq_self {l : List Char}
    (h : ∀ c ∈ l, isPySpace c = false) : ∀ b : Bool, squashWs b l = l := by
  induction l with
  | nil => intro b; rfl
  | cons x xs ih =>
    intro b
    rw [squashWs, if_neg (by simp [h x (List.mem_cons_self x xs)])]
    rw [ih (fun c hc => h c (List.mem_cons_of_mem x hc)) false]

lemma dropWhile_head_false (p : α → Bool) (l : List α) :
    ∀ c cs, l.dropWhile p = c :: cs → p c = false := by
  induction l with
  | nil => intro c cs h; simp [List.dropWhile] at h
  | cons x xs ih =>
    intro c cs h
    rw [List.dropWhile_cons] at h
    by_cases hx : p x
    · rw [if_pos hx] at h
      exact ih c cs h
    · rw [if_neg hx] at h
      cases h
      simpa using hx

lemma dropWhile_eq_self_of_head (p : α → Bool) (l : List α)
    (h : ∀ c cs, l = c :: cs → p c = false) : l.dropWhile p = l := by
  cases l with
  | nil => rfl
  | cons x xs => rw [List.dropWhile_cons, if_neg (by simp [h x xs rfl])]

lemma mem_stripHyphens {c : Char} {l : List Char} (h : c ∈ stripHyphens l) :
    c ∈ l := by
  rw [stripHyphens, List.mem_reverse] at h
  have h1 := (List.dropWhile_sublist _).subset h
  rw [List.mem_reverse] at h1
  exact (List.dropWhile_sublist _).subset h1

lemma stripHyphens_head {l : List Char} :
    (stripHyphens l).head? ≠ some '-' := by
  obtain ⟨t, ht⟩ :=
    List.dropWhile_suffix (l := (l.dropWhile (fun c => c == '-')).reverse)
      (fun c => c == '-')
  have hm : l.dropWhile (fun c => c == '-') = stripHyphens l ++ t.reverse := by
    have h1 := congrArg List.reverse ht
    rw [List.reverse_append, List.reverse_reverse] at h1
    rw [← h1]
    rfl
  match hS : stripHyphens l with
  | [] => simp
  | c :: cs =>
    rw [hS] at hm
    have := dropWhile_head_false (fun c => c == '-') l c (cs ++ t.reverse)
      (by rw [hm]; simp)
    simp only [List.head?_cons, ne_eq, Option.some.injEq]
    intro hcontra
    rw [hcontra] at this
    simp at this

lemma stripHyphens_getLast {l : List Char} :
    (stripHyphens l).getLast? ≠ some '-' := by
  rw [stripHyphens, List.getLast?_reverse]
  match hY : (l.dropWhile (fun c => c == '-')).reverse.dropWhile (fun c => c == '-') with
  | [] => simp
  | c :: cs =>
    have := dropWhile_head_false (fun c => c == '-') _ c cs hY
    simp only [List.head?_cons, ne_eq, Option.some.injEq]
    intro hcontra
    rw [hcontra] at this
    simp at this

lemma stripHyphens_eq_self {l : List Char}
    (h1 : l.head? ≠ some '-') (h2 : l.getLast? ≠ some '-') :
    stripHyphens l = l := by
  have ha : l.dropWhile (fun c => c == '-') = l := by
    apply dropWhile_eq_self_of_head
    intro c cs hc
    have hh : l.head? = some c := by rw [hc]; rfl
    have hne : c ≠ '-' := fun he => h1 (by rw [hh, he])
    simpa using hne
  have hb : l.reverse.dropWhile (fun c => c == '-') = l.reverse := by
    apply dropWhile_eq_self_of_head
    intro c cs hc
    have hh : l.getLast? = some c := by
      rw [← List.head?_reverse, hc]; rfl
    have hne : c ≠ '-' := fun he => h2 (by rw [hh, he])
    simpa using hne
  rw [stripHyphens, ha, hb, List.reverse_reverse]

lemma create_slug_charset (t : String) :
    ∀ c ∈ (create_slug t).data,
      (97 ≤ c.toNat ∧ c.toNat ≤ 122) ∨ (48 ≤ c.toNat ∧ c.toNat ≤ 57) ∨
        c = '-' := by
  intro c hc
  have h1 : c ∈ squashWs false ((t.data.map toLowerChar).filter isSlugKeep) :=
    mem_stripHyphens hc
  rcases mem_squashWs false _ h1 with h2 | h2
  · exact Or.inr (Or.inr h2)
  · have hkeep : isSlugKeep c = true := List.of_mem_filter h2.1
    have hns := h2.2
    rw [isSlugKeep] at hkeep
    simp only [Bool.or_eq_true, Bool.and_eq_true, decide_eq_true_eq] at hkeep
    rcases hkeep with ((haz | hdig) | hsp) | hhy
    · exact Or.inl haz
    · exact Or.inr (Or.inl hdig)
    · rw [hsp] at hns; simp at hns
    · exact Or.inr (Or.inr (by simpa using hhy))

/-- C9: the slug normalization is idempotent, its output consists only of
lowercase ASCII letters (97-122), digits (48-57) and hyphens, and it has no
leading or trailing hyphen. -/
theorem create_slug_ok (t : String) :
    create_slug (create_slug t) = create_slug t ∧
    (∀ c ∈ (create_slug t).data,
      (97 ≤ c.toNat ∧ c.toNat ≤ 122) ∨ (48 ≤ c.toNat ∧ c.toNat ≤ 57) ∨
        c = '-') ∧
    (create_slug t).data.head? ≠ some '-' ∧
    (create_slug t).data.getLast? ≠ some '-' := by
  have hchar := create_slug_charset t
  have hdata : (create_slug t).data
      = stripHyphens (squashWs false ((t.data.map toLowerChar).filter isSlugKeep)) := rfl
  refine ⟨?_, hchar, by rw [hdata]; exact stripHyphens_head,
    by rw [hdata]; exact stripHyphens_getLast⟩
  have hlower : (create_slug t).data.map toLowerChar = (create_slug t).data := by
    have : ∀ c ∈ (create_slug t).data, toLowerChar c = c := by
      intro c hc
      rcases hchar c hc with h | h | h
      · rw [toLowerChar, if_neg (by simp; omega)]
      · rw [toLowerChar, if_neg (by simp; omega)]
      · subst h; decide
    calc (create_slug t).data.map toLowerChar
        = (create_slug t).data.map id := List.map_congr_left this
      _ = (create_slug t).data := List.map_id _
  have hfilter : (create_slug t).data.filter isSlugKeep = (create_slug t).data := by
    rw [List.filter_eq_self]
    intro c hc
    rcases hchar c hc with h | h | h
    · rw [isSlugKeep]; simp; omega
    · rw [isSlugKeep]; simp; omega
    · subst h; decide
  have hnospace : ∀ c ∈ (create_slug t).data, isPySpace c = false := by
    intro c hc
    rcases hchar c hc with h | h | h
    · rw [isPySpace]; simp; omega
    · rw [isPySpace]; simp; omega
    · subst h; decide
  have hsquash := squashWs_eq_self hnospace false
  have hstrip := stripHyphens_eq_self
    (l := (create_slug t).data)
    (by rw [hdata]; exact stripHyphens_head)
    (by rw [hdata]; exact stripHyphens_getLast)
  show (⟨stripHyphens (squashWs false
      (((create_slug t).data.map toLowerChar).filter isSlugKeep))⟩ : String)
    = create_slug t
  rw [hlower, hfilter, hsquash, hstrip]

/-- Witness for C9 at a concrete title with uppercase letters, punctuation
and spaces. -/
theorem create_slug_ok_witness :
    create_slug (create_slug "Mad Max: Fury Road")
        = create_slug "Mad Max: Fury Road" ∧
    ((97 ≤ 'm'.toNat ∧ 'm'.toNat ≤ 122) ∨ (48 ≤ 'm'.toNat ∧ 'm'.toNat ≤ 57) ∨
      'm' = '-') ∧
    (create_slug "Mad Max: Fury Road").data.head? ≠ some '-' := by
  have h := create_slug_ok "Mad Max: Fury Road"
  exact ⟨h.1, h.2.1 'm' (by decide), h.2.2.1⟩

/-- C8: `build_taste_profile` on the empty loved-films list returns
`top_genres = []`, `average_year = 0`, `total_movies = 0` without raising
(the embedding is total), and for every non-empty input `average_year` is the
sum of the films' years (missing year contributing 0) over the number of
films. -/
theorem taste_profile_ok :
    (analyze_taste_profile []).top_genres = [] ∧
    (analyze_taste_profile []).average_year = 0 ∧
    (analyze_taste_profile []).total_movies = 0 ∧
    ∀ loved : List Movie, loved ≠ [] →
      (analyze_taste_profile loved).average_year
        = (((loved.map (fun m => m.year.getD 0)).sum : ℤ) : ℚ) / (loved.length : ℚ) := by
  refine ⟨rfl, rfl, rfl, ?_⟩
  intro loved hne
  rw [analyze_taste_profile]
  simp only [if_neg hne]

/-- Witness for C8: a single loved film from the year 2000 gives
`average_year = 2000`. -/
theorem taste_profile_ok_witness :
    (analyze_taste_profile [{ defaultMovie with year := some 2000 }]).average_year
      = 2000 := by
  have h := taste_profile_ok.2.2.2 [{ defaultMovie with year := some 2000 }]
    (by simp)
  rw [h]
  norm_num

lemma filter_dedup_card (l₁ l₂ : List String) :
    (l₁.dedup.filter (fun g => decide (g ∈ l₂))).length
      = (l₁.toFinset ∩ l₂.toFinset).card := by
  have hnd : (l₁.dedup.filter (fun g => decide (g ∈ l₂))).Nodup :=
    (List.nodup_dedup l₁).filter _
  rw [← List.toFinset_card_of_nodup hnd]
  congr 1
  ext x
  simp [List.mem_filter, List.mem_dedup, Finset.mem_inter]

/-- C2: the recommendation score equals
`base_similarity*0.5*(1 - d*0.3) + genre_match*0.2 + theme_match*0.15 +
(director_bonus-1.0)*0.15 + recency*d*0.1` with set-based genre and theme
ratios, a 1.2 director bonus and `recency = min(year/2020, 1)`; the spec's
worked scenario yields exactly 0.591; and every entry of the scorer's output
is an input candidate annotated with exactly this score. -/
theorem score_formula_ok :
    (∀ (c : Movie) (p : TasteProfile) (d : ℚ) (y : ℤ),
      0 ≤ d → d ≤ 1 → c.year = some y →
      score_candidate c p d =
        c.base_similarity * (1/2) * (1 - d * (3/10))
        + (((c.genres.toFinset ∩ p.top_genres.toFinset).card : ℚ)
            / ((max c.genres.toFinset.card 1 : ℕ) : ℚ)) * (1/5)
        + (if c.themes.toFinset = ∅ then 0
           else ((c.themes.toFinset ∩ p.top_themes.toFinset).card : ℚ)
            / ((max c.themes.toFinset.card 1 : ℕ) : ℚ)) * (3/20)
        + ((if c.director ∈ p.top_directors then (6/5 : ℚ) else 1) - 1) * (3/20)
        + min ((y : ℚ) / 2020) 1 * d * (1/10)) ∧
    score_candidate scenario_candidate scenario_profile (3/10) = 591/1000 ∧
    (∀ (cands : List Movie) (p : TasteProfile) (loved : List Movie) (d : ℚ),
      ∀ c ∈ score_candidates cands p loved d,
        ∃ c₀ ∈ cands,
          c = { c₀ with recommendation_score := score_candidate c₀ p d }) := by
  refine ⟨?_, ?_, ?_⟩
  · intro c p d y _ _ hy
    have hg : genre_match c p
        = ((c.genres.toFinset ∩ p.top_genres.toFinset).card : ℚ)
          / ((max c.genres.toFinset.card 1 : ℕ) : ℚ) := by
      rw [genre_match, filter_dedup_card, List.card_toFinset]
    have ht : theme_match c p
        = if c.themes.toFinset = ∅ then 0
          else ((c.themes.toFinset ∩ p.top_themes.toFinset).card : ℚ)
            / ((max c.themes.toFinset.card 1 : ℕ) : ℚ) := by
      rw [theme_match]
      by_cases h : c.themes = []
      · rw [if_pos (by rw [List.dedup_eq_nil]; exact h),
          if_pos ((List.toFinset_eq_empty_iff _).mpr h)]
      · rw [if_neg (by rw [List.dedup_eq_nil]; exact h),
          if_neg (fun hh => h ((List.toFinset_eq_empty_iff _).mp hh)),
          filter_dedup_card, List.card_toFinset]
    have hr : recency_factor c = min ((y : ℚ) / 2020) 1 := by
      rw [recency_factor, hy, Option.getD_some]
    rw [score_candidate, hg, ht, hr, director_bonus]
  · have hdedup : (["Drama"] : List String).dedup = ["Drama"] := by simp
    rw [score_candidate, genre_match, theme_match, director_bonus,
      recency_factor]
    rw [show scenario_candidate.genres = ["Drama"] from rfl,
      show scenario_candidate.themes = ([] : List String) from rfl,
      show scenario_candidate.director = "Unknown" from rfl,
      show scenario_candidate.year = some 1818 from rfl,
      show scenario_candidate.base_similarity = 4/5 from rfl,
      show scenario_profile.top_genres = ["Drama"] from rfl,
      show scenario_profile.top_directors = ([] : List String) from rfl,
      hdedup]
    rw [if_pos (by rw [List.dedup_eq_nil]), if_neg (by simp)]
    have hfil : (["Drama"].filter (fun g => decide (g ∈ ["Drama"]))).length = 1 := by
      simp
    rw [hfil]
    have hmin : min (((1818 : ℤ) : ℚ) / 2020) 1 = 9/10 := by
      rw [min_eq_left (by norm_num)]
      norm_num
    norm_num [Option.getD_some, hmin]
  · intro cands p loved d c hc
    have hm := (mem_ssort _ _ _).mp hc
    rw [List.mem_map] at hm
    obtain ⟨c₀, hc₀, rfl⟩ := hm
    exact ⟨c₀, hc₀, rfl⟩

/-- Witness for C2: the formula instantiated at the worked scenario (year
1818, diversity 0.3). -/
theorem score_formula_ok_witness :
    score_candidate scenario_candidate scenario_profile (3/10) =
      scenario_candidate.base_similarity * (1/2) * (1 - (3/10) * (3/10))
      + (((scenario_candidate.genres.toFinset
            ∩ scenario_profile.top_genres.toFinset).card : ℚ)
          / ((max scenario_candidate.genres.toFinset.card 1 : ℕ) : ℚ)) * (1/5)
      + (if scenario_candidate.themes.toFinset = ∅ then 0
         else ((scenario_candidate.themes.toFinset
            ∩ scenario_profile.top_themes.toFinset).card : ℚ)
          / ((max scenario_candidate.themes.toFinset.card 1 : ℕ) : ℚ)) * (3/20)
      + ((if scenario_candidate.director ∈ scenario_profile.top_directors
          then (6/5 : ℚ) else 1) - 1) * (3/20)
      + min (((1818 : ℤ) : ℚ) / 2020) 1 * (3/10) * (1/10) :=
  score_formula_ok.1 scenario_candidate scenario_profile (3/10) 1818
    (by norm_num) (by norm_num) rfl

lemma select_top_subset : ∀ (num : ℕ) (l : List Movie) (seen : List String),
    ∀ c ∈ select_top num l seen, c ∈ l := by
  intro num l
  induction l with
  | nil => intro seen c hc; simp [select_top] at hc
  | cons x xs ih =>
    intro seen c hc
    rw [select_top] at hc
    by_cases h1 : create_slug x.title ∉ seen ∧ x.ctype ≠ "loved"
    · rw [if_pos h1] at hc
      by_cases h2 : num ≤ seen.length + 1
      · rw [if_pos h2] at hc
        rw [List.mem_singleton.mp hc]
        exact List.mem_cons_self x xs
      · rw [if_neg h2] at hc
        rcases List.mem_cons.mp hc with rfl | h3
        · exact List.mem_cons_self c xs
        · exact List.mem_cons_of_mem x (ih _ c h3)
    · rw [if_neg h1] at hc
      exact List.mem_cons_of_mem x (ih seen c hc)

lemma select_top_invariant : ∀ (num : ℕ) (l : List Movie) (seen : List String),
    (∀ c ∈ select_top num l seen, create_slug c.title ∉ seen) ∧
    (select_top num l seen).Pairwise
      (fun a b => create_slug a.title ≠ create_slug b.title) := by
  intro num l
  induction l with
  | nil =>
    intro seen
    exact ⟨fun c hc => by simp [select_top] at hc, by simp [select_top]⟩
  | cons x xs ih =>
    intro seen
    rw [select_top]
    by_cases h1 : create_slug x.title ∉ seen ∧ x.ctype ≠ "loved"
    · rw [if_pos h1]
      by_cases h2 : num ≤ seen.length + 1
      · rw [if_pos h2]
        refine ⟨?_, by simp⟩
        intro c hc
        rw [List.mem_singleton.mp hc]
        exact h1.1
      · rw [if_neg h2]
        have ihx := ih (create_slug x.title :: seen)
        refine ⟨?_, ?_⟩
        · intro c hc
          rcases List.mem_cons.mp hc with rfl | h3
          · exact h1.1
          · intro hmem
            exact ihx.1 c h3 (List.mem_cons_of_mem _ hmem)
        · refine List.pairwise_cons.mpr ⟨?_, ihx.2⟩
          intro b hb he
          exact ihx.1 b hb (he ▸ List.mem_cons_self _ _)
    · rw [if_neg h1]
      exact ih seen

/-- C3: every output of `generate_recommendations` avoids the exclusion set
(slugs of the all-rated list, defaulting to the loved list when `None`), and
the output never repeats a slug. -/
theorem generate_recommendations_ok :
    (∀ (loved : List Movie) (rated : Option (List Movie))
        (findSimilar : String → List Movie) (num : ℕ) (d : ℚ) (c : Movie),
      c ∈ generate_recommendations loved rated findSimilar num d →
      create_slug c.title
        ∉ (rated.getD loved).map (fun m => create_slug m.title)) ∧
    (∀ (loved : List Movie) (rated : Option (List Movie))
        (findSimilar : String → List Movie) (num : ℕ) (d : ℚ),
      (generate_recommendations loved rated findSimilar num d).Pairwise
        (fun a b => create_slug a.title ≠ create_slug b.title)) := by
  constructor
  · intro loved rated findSimilar num d c hc
    have h1 : c ∈ score_candidates
        (gather_candidates loved findSimilar
          ((rated.getD loved).map (fun m => create_slug m.title)))
        (analyze_taste_profile loved) loved d :=
      select_top_subset num _ [] c hc
    have h2 := (mem_ssort _ _ _).mp h1
    rw [List.mem_map] at h2
    obtain ⟨c₀, hc₀, rfl⟩ := h2
    rw [gather_candidates, List.mem_flatMap] at hc₀
    obtain ⟨m, hm, hc₀⟩ := hc₀
    rw [List.mem_map] at hc₀
    obtain ⟨c₁, hc₁, rfl⟩ := hc₀
    have h3 := List.of_mem_filter hc₁
    show create_slug c₁.title ∉ _
    simpa using h3
  · intro loved rated findSimilar num d
    exact (select_top_invariant num _ []).2

/-- Witness for C3 on a concrete pipeline run with one loved film and one
candidate. -/
theorem generate_recommendations_ok_witness :
    create_slug w3_rec.title
        ∉ (w3_loved.map (fun m => create_slug m.title)) ∧
    (generate_recommendations w3_loved none (fun _ => [w3_cand]) 5
        (3/10)).Pairwise
      (fun a b => create_slug a.title ≠ create_slug b.title) := by
  have heval : generate_recommendations w3_loved none (fun _ => [w3_cand]) 5
      (3/10) = [w3_rec] := rfl
  refine ⟨?_, generate_recommendations_ok.2 w3_loved none
    (fun _ => [w3_cand]) 5 (3/10)⟩
  have hmem : w3_rec ∈ generate_recommendations w3_loved none
      (fun _ => [w3_cand]) 5 (3/10) := by
    rw [heval]
    exact List.mem_singleton.mpr rfl
  exact generate_recommendations_ok.1 w3_loved none (fun _ => [w3_cand]) 5
    (3/10) w3_rec hmem

lemma mem_ruleSentences (f : String → ℚ) (r : NarrationRule) (s : String)
    (hthr : r.lowThr ≤ r.highThr) :
    s ∈ ruleSentences f r ↔
      (r.low = some s ∧ f r.dim < r.lowThr) ∨
        (r.high = some s ∧ r.highThr < f r.dim) := by
  obtain ⟨dim, lowThr, low, highThr, high⟩ := r
  simp only at hthr ⊢
  rcases low with _ | s₀
  · rcases high with _ | t₀
    · simp [ruleSentences]
    · rw [ruleSentences]
      by_cases hc : highThr < f dim
      · simp [hc, eq_comm]
      · simp [hc]
  · rw [ruleSentences]
    by_cases hc : f dim < lowThr
    · have hnc : ¬ highThr < f dim := fun hh => absurd hthr (by push_neg; linarith)
      rcases high with _ | t₀ <;> simp [hc, hnc, eq_comm]
    · rcases high with _ | t₀
      · simp [hc]
      · by_cases hh : highThr < f dim <;> simp [hc, hh, eq_comm]

lemma mem_narrateParts (rules : List NarrationRule) (f : String → ℚ)
    (s : String) (hthr : ∀ r ∈ rules, r.lowThr ≤ r.highThr) :
    s ∈ narrateParts rules f ↔
      ∃ r ∈ rules, (r.low = some s ∧ f r.dim < r.lowThr) ∨
        (r.high = some s ∧ r.highThr < f r.dim) := by
  rw [narrateParts, List.mem_flatMap]
  constructor
  · rintro ⟨r, hr, hs⟩
    exact ⟨r, hr, (mem_ruleSentences f r s (hthr r hr)).mp hs⟩
  · rintro ⟨r, hr, hcase⟩
    exact ⟨r, hr, (mem_ruleSentences f r s (hthr r hr)).mpr hcase⟩

lemma allNarrationRules_thr : ∀ r ∈ allNarrationRules, r.lowThr ≤ r.highThr := by
  intro r hr
  fin_cases hr <;> norm_num

/-- C7 (amended): a sentence is emitted by a narrator category iff its rule's
gate holds, where the gates are score < 3 (low) / score > 5 (high) for every
block except the quality category's `narrative_ambition_level` and
`emotional_weight_tolerance`, which use < 2.5 / > 5.5.  (The claim's "no
renderer sentence uses any other threshold than 3/5" fails on those two
blocks — see the counterexample.) -/
theorem narrative_thresholds_ok (f : String → ℚ) (s : String) :
    (s ∈ narrateParts visualRules f ↔
      ∃ r ∈ visualRules, (r.low = some s ∧ f r.dim < r.lowThr) ∨
        (r.high = some s ∧ r.highThr < f r.dim)) ∧
    (s ∈ narrateParts rhythmRules f ↔
      ∃ r ∈ rhythmRules, (r.low = some s ∧ f r.dim < r.lowThr) ∨
        (r.high = some s ∧ r.highThr < f r.dim)) ∧
    (s ∈ narrateParts soundRules f ↔
      ∃ r ∈ soundRules, (r.low = some s ∧ f r.dim < r.lowThr) ∨
        (r.high = some s ∧ r.highThr < f r.dim)) ∧
    (s ∈ narrateParts qualityRules f ↔
      ∃ r ∈ qualityRules, (r.low = some s ∧ f r.dim < r.lowThr) ∨
        (r.high = some s ∧ r.highThr < f r.dim)) ∧
    (s ∈ narrateParts storyRules f ↔
      ∃ r ∈ storyRules, (r.low = some s ∧ f r.dim < r.lowThr) ∨
        (r.high = some s ∧ r.highThr < f r.dim)) ∧
    (s ∈ narrateParts emotionalRules f ↔
      ∃ r ∈ emotionalRules, (r.low = some s ∧ f r.dim < r.lowThr) ∨
        (r.high = some s ∧ r.highThr < f r.dim)) ∧
    (∀ r ∈ allNarrationRules,
      ((r.dim = "narrative_ambition_level" ∨ r.dim = "emotional_weight_tolerance") →
        r.lowThr = 5/2 ∧ r.highThr = 11/2) ∧
      (¬(r.dim = "narrative_ambition_level" ∨ r.dim = "emotional_weight_tolerance") →
        r.lowThr = 3 ∧ r.highThr = 5)) := by
  have hv : ∀ r ∈ visualRules, r.lowThr ≤ r.highThr := fun r hr =>
    allNarrationRules_thr r (by simp [allNarrationRules, hr])
  have hrh : ∀ r ∈ rhythmRules, r.lowThr ≤ r.highThr := fun r hr =>
    allNarrationRules_thr r (by simp [allNarrationRules, hr])
  have hs : ∀ r ∈ soundRules, r.lowThr ≤ r.highThr := fun r hr =>
    allNarrationRules_thr r (by simp [allNarrationRules, hr])
  have hq : ∀ r ∈ qualityRules, r.lowThr ≤ r.highThr := fun r hr =>
    allNarrationRules_thr r (by simp [allNarrationRules, hr])
  have hst : ∀ r ∈ storyRules, r.lowThr ≤ r.highThr := fun r hr =>
    allNarrationRules_thr r (by simp [allNarrationRules, hr])
  have he : ∀ r ∈ emotionalRules, r.lowThr ≤ r.highThr := fun r hr =>
    allNarrationRules_thr r (by simp [allNarrationRules, hr])
  refine ⟨mem_narrateParts _ f s hv, mem_narrateParts _ f s hrh,
    mem_narrateParts _ f s hs, mem_narrateParts _ f s hq,
    mem_narrateParts _ f s hst, mem_narrateParts _ f s he, ?_⟩
  intro r hr
  fin_cases hr <;>
    exact ⟨fun h => by first | exact ⟨rfl, rfl⟩ | simp at h,
      fun h => by first | exact ⟨rfl, rfl⟩ | simp at h⟩

/-- Counterexample for C7 as stated: at score 2.0 the
`narrative_ambition_level` low-pole sentence is emitted, but at score 2.7 —
still strictly below 3 — it is not: that block is gated at 2.5, not at the
claim's uniform 3. -/
theorem narrative_thresholds_counterexample :
    ((27:ℚ)/10 < 3) ∧
    narrateParts qualityRules
        (fun d => if d = "narrative_ambition_level" then (2:ℚ) else 4)
      = ["You seek pure sensory thrill and spectacle over thematic density."] ∧
    narrateParts qualityRules
        (fun d => if d = "narrative_ambition_level" then (27/10:ℚ) else 4)
      = [] := by
  have e1 : ((4:ℚ) < 3) = False := by norm_num
  have e2 : ((5:ℚ) < 4) = False := by norm_num
  have e3 : ((4:ℚ) < 5/2) = False := by norm_num
  have e4 : ((11:ℚ)/2 < 4) = False := by norm_num
  have e5 : ((2:ℚ) < 5/2) = True := by norm_num
  have e6 : ((11:ℚ)/2 < 2) = False := by norm_num
  have e7 : ((27/10:ℚ) < 5/2) = False := by norm_num
  have e8 : ((11:ℚ)/2 < 27/10) = False := by norm_num
  refine ⟨by norm_num, ?_, ?_⟩ <;>
    simp [narrateParts, qualityRules, ruleSentences, e1, e2, e3, e4, e5, e6,
      e7, e8]

/-- Witness for C7 (amended) at a concrete score map: with every dimension at
6, the visual category emits its saturated-color sentence, and the
`narrative_ambition_level` block is confirmed at thresholds 2.5/5.5. -/
theorem narrative_thresholds_ok_witness :
    ("You respond to saturated, neon-drenched visuals that create heightened, dreamlike intensity."
        ∈ narrateParts visualRules (fun _ => 6)) ∧
    ({ dim := "narrative_ambition_level"
       lowThr := 5/2
       low := some "You seek pure sensory thrill and spectacle over thematic density."
       highThr := 11/2
       high := some "You want cinema to wrestle with mythic themes—existence, mortality, the human condition writ large." : NarrationRule }.lowThr = 5/2 ∧
     { dim := "narrative_ambition_level"
       lowThr := 5/2
       low := some "You seek pure sensory thrill and spectacle over thematic density."
       highThr := 11/2
       high := some "You want cinema to wrestle with mythic themes—existence, mortality, the human condition writ large." : NarrationRule }.highThr = 11/2) := by
  have h := narrative_thresholds_ok (fun _ => 6)
    "You respond to saturated, neon-drenched visuals that create heightened, dreamlike intensity."
  refine ⟨h.1.mpr ?_, ?_⟩
  · refine ⟨{ dim := "color_palette_psychology"
              lowThr := 3
              low := some "You gravitate toward muted, desaturated color palettes that evoke melancholy and earthbound realism."
              highThr := 5
              high := some "You respond to saturated, neon-drenched visuals that create heightened, dreamlike intensity." },
      by simp [visualRules], Or.inr ⟨rfl, by norm_num⟩⟩
  · have hb := h.2.2.2.2.2.2
      { dim := "narrative_ambition_level"
        lowThr := 5/2
        low := some "You seek pure sensory thrill and spectacle over thematic density."
        highThr := 11/2
        high := some "You want cinema to wrestle with mythic themes—existence, mortality, the human condition writ large." }
      (by simp [allNarrationRules, qualityRules])
    exact hb.1 (Or.inl rfl)

/-- Witness for C10: cleaning a concrete movie list with an unregistered key
and a `None` score leaves the aggregate for `editing_tempo` unchanged. -/
theorem clean_scores_ok_witness :
    calculate_average_scores
        ([ [("editing_tempo", some 6), ("bogus_dimension", some 3),
            ("narrative_rhythm", none)] ].map (fun m =>
          m.filter (fun p => decide (p.1 ∈ dimension_names) && p.2.isSome)))
        "editing_tempo"
      = calculate_average_scores
          [ [("editing_tempo", some 6), ("bogus_dimension", some 3),
             ("narrative_rhythm", none)] ] "editing_tempo" :=
  clean_scores_ok
    [ [("editing_tempo", some 6), ("bogus_dimension", some 3),
       ("narrative_rhythm", none)] ] "editing_tempo" (by decide)
